import Mathlib

/-!
Verification of the incremental build orchestrator in `src/gulp/default-paths.js`
(the `syrup` gulp task registry).  The definitions below are a shallow embedding
of the stateful parts of that file: the `runOrQueue` request coalescer, the
watchify `update` handler (node_modules filtering, package.json detection and
bundler invalidation), the memoized `bundler()` accessor, the watch-task wiring,
the completion logging helpers and the serve task's port selection.
-/

set_option maxHeartbeats 1000000

namespace Syrup

/-- Terminal colors used through `gutil.colors` in the source. -/
inductive Color where
  | green | red | yellow | magenta | cyan | gray
deriving DecidableEq

/-- Unit chosen by `formattedTimeDiff` for displaying an elapsed duration:
milliseconds while `diff < 1000`, minutes when `diff / 1000 > 60`, seconds
otherwise (string rendering of the numeral itself is outside the model). -/
inductive TimeUnit where
  | millis | secs | mins
deriving DecidableEq

/-- Display form of an elapsed duration: the unit picked by
`formattedTimeDiff` plus the raw millisecond difference it was computed from. -/
structure TimeDisp where
  unit : TimeUnit
  diffMs : Nat
deriving DecidableEq

/-- Embedding of `formattedTimeDiff(start)` with `diffMs = Date.now() - start`:
`diff < 1000` renders in milliseconds, otherwise the seconds value
`diff / 1000` renders in minutes when it exceeds 60 (`diffMs > 60000`) and in
seconds otherwise.  The result is wrapped in yellow by the caller. -/
def formattedTimeDiff (diffMs : Nat) : TimeDisp :=
  if diffMs < 1000 then { unit := .millis, diffMs := diffMs }
  else if diffMs > 60000 then { unit := .mins, diffMs := diffMs }
  else { unit := .secs, diffMs := diffMs }

/-- One line logged on task completion: the colored message followed by the
colored, formatted elapsed time. -/
structure CompletionMsg where
  headColor : Color
  timeColor : Color
  time : TimeDisp
deriving DecidableEq

/-- Embedding of `outputBuildCompleteMessage(start)`: logs the green text
`Build finished successfully in ` followed by the yellow formatted time diff. -/
def outputBuildCompleteMessage (elapsedMs : Nat) : CompletionMsg :=
  { headColor := .green, timeColor := .yellow, time := formattedTimeDiff elapsedMs }

/-- Log lines emitted by the completion callback that `runOrQueue` passes to
`gulp.start`.  The callback declares no error parameter, so the run's outcome
(`_success`) never influences what is logged: the single call to
`outputBuildCompleteMessage(start)` happens unconditionally. -/
def completionLog (_success : Bool) (elapsedMs : Nat) : List CompletionMsg :=
  [outputBuildCompleteMessage elapsedMs]

/-! ## Path predicates used by the watchify `update` handler -/

/-- Mirror of JavaScript `String.prototype.split` with a one-character
separator, over the character list of the string.  `split` keeps empty
segments, and an empty string yields one empty segment. -/
def splitOnChar (c : Char) : List Char → List (List Char)
  | [] => [[]]
  | x :: xs =>
    if x = c then [] :: splitOnChar c xs
    else
      match splitOnChar c xs with
      | [] => [[x]]
      | y :: ys => (x :: y) :: ys

/-- Mirror of Node's `path.basename` on a POSIX path: trailing separators are
dropped, then the final path segment is returned. -/
def basenameChars (l : List Char) : List Char :=
  ((l.reverse.dropWhile (fun ch => ch = '/')).takeWhile (fun ch => ch ≠ '/')).reverse

/-- True iff `pat` occurs contiguously inside the second list; this is
JavaScript's `s.indexOf(pat) !== -1`. -/
def hasSubstr (pat : List Char) : List Char → Bool
  | [] => pat.isEmpty
  | x :: xs => pat.isPrefixOf (x :: xs) || hasSubstr pat xs

/-- Embedding of the spurious-change test in the update handler:
`f.indexOf('/node_modules/') !== -1`. -/
def hasNodeModules (f : String) : Bool :=
  hasSubstr "/node_modules/".toList f.toList

/-- Embedding of the manifest-file test in the update handler: the path is
split on `'.'`; when there are at least two parts, the file is a manifest iff
`path.basename` of the second-to-last part is `package` and the last part is
`json`. -/
def isPackageJson (f : String) : Bool :=
  let fileParts := splitOnChar '.' f.toList
  if fileParts.length > 1 then
    decide (basenameChars (fileParts.getD (fileParts.length - 2) []) = "package".toList) &&
    decide (fileParts.getD (fileParts.length - 1) [] = "json".toList)
  else
    false

/-! ## The watchify `update` handler -/

/-- Which of the three control-flow outcomes the update handler takes for a
batch of changed files. -/
inductive UpdateAction where
  | noAction | rebundle | manifestReinstall
deriving DecidableEq

/-- Control flow of the `bundlerInstance.on('update', ...)` callback: if every
changed file contains `/node_modules/` nothing happens; otherwise the files
(all of them, including those under node_modules) are scanned for manifest
files, choosing the npm prune / npm install path when at least one is found and
a plain rebundle otherwise. -/
def updateHandlerAction (changedFiles : List String) : UpdateAction :=
  let nodeModuleChanges := changedFiles.filter (fun f => hasNodeModules f)
  if nodeModuleChanges.length ≠ changedFiles.length then
    let packageJsonChanges := changedFiles.filter (fun f => isPackageJson f)
    if packageJsonChanges.length > 0 then .manifestReinstall else .rebundle
  else
    .noAction

/-- Externally visible effects of the update handler, in program order.
`gutil.log` calls are omitted: they alter no state and gate no control flow.
`invalidateBundler` stands for the `reset(); close(); bundlerInstance =
undefined` triple and `requestRebuild` for a `rebundleJs()` call, which is
`runOrQueue('html-js')`. -/
inductive Effect where
  | invalidateBundler | execPrune | execInstall | requestRebuild
deriving DecidableEq

/-- Linearization of the update handler's effects, including the asynchronous
`npm prune` / `npm install` continuations: every continuation branch (prune
error, install error, install success) ends in exactly one `rebundleJs()`. -/
def updateHandlerTrace (changedFiles : List String) (pruneErr installErr : Bool) :
    List Effect :=
  match updateHandlerAction changedFiles with
  | .noAction => []
  | .rebundle => [.requestRebuild]
  | .manifestReinstall =>
    [.invalidateBundler, .execPrune] ++
    (if pruneErr then [.requestRebuild]
     else [.execInstall] ++ (if installErr then [.requestRebuild] else [.requestRebuild]))

/-! ## The memoized bundler -/

/-- A browserify instance, identified by a creation counter; `watchified`
records whether it was wrapped with watchify at construction time. -/
structure Session where
  id : Nat
  watchified : Bool
deriving DecidableEq

/-- The closure state backing `bundler()`: the memoized `bundlerInstance`
variable (by identity) plus a fresh-identity counter. -/
structure BundlerSlot where
  bundlerInstance : Option Session
  nextId : Nat
deriving DecidableEq

/-- Embedding of the `bundler()` accessor: when `bundlerInstance` is unset a
new instance is constructed (wrapped with watchify exactly when `watchJs` is
true) and memoized; otherwise the memoized instance is returned unchanged. -/
def bundler (watchJs : Bool) (s : BundlerSlot) : Session × BundlerSlot :=
  match s.bundlerInstance with
  | some inst => (inst, s)
  | none =>
    let inst : Session := { id := s.nextId, watchified := watchJs }
    (inst, { bundlerInstance := some inst, nextId := s.nextId + 1 })

/-- Action of one handler effect on the bundler slot: only
`invalidateBundler` touches it, clearing the memoized instance. -/
def applyEffect (s : BundlerSlot) (e : Effect) : BundlerSlot :=
  match e with
  | .invalidateBundler => { s with bundlerInstance := none }
  | _ => s

/-- Bundler slot after executing a handler trace in order. -/
def runTrace (s : BundlerSlot) (tr : List Effect) : BundlerSlot :=
  tr.foldl applyEffect s

/-! ## Watch-task wiring -/

/-- Task requests generated by the three independent `gulp.watch`
registrations in the `watch` task for a single raw change notification.  Glob
matching is performed by gulp itself, so each watcher is represented by the
outcome of matching its pattern; every watcher whose pattern matches fires its
handler, which issues one `runOrQueue` request. -/
def watchRequests (matchLess matchAssets matchHtml : Bool) : List String :=
  (if matchLess then ["html-less"] else []) ++
  (if matchAssets then ["html-assets"] else []) ++
  (if matchHtml then ["html-only"] else [])

/-- All task requests a single genuine change notification can generate: the
three `gulp.watch` channels plus the watchify update channel, which requests
`html-js` when the changed path is a module watched by the bundler. -/
def changeRequests (matchLess matchAssets matchHtml watchedModule : Bool) : List String :=
  watchRequests matchLess matchAssets matchHtml ++
  (if watchedModule then ["html-js"] else [])

/-! ## Serve task port selection -/

/-- JavaScript truthiness for an optional numeric value: `undefined` and `0`
are falsy. -/
def jsTruthy : Option Nat → Bool
  | none => false
  | some n => decide (n ≠ 0)

/-- Embedding of the serve task's `options.port || gutil.env.port || 4040`. -/
def servePort (optionsPort envPort : Option Nat) : Nat :=
  if jsTruthy optionsPort then optionsPort.getD 0
  else if jsTruthy envPort then envPort.getD 0
  else 4040

/-! ## The `runOrQueue` coalescer -/

/-- The `runningTasks` object: an association of task name to the
should-run-again flag. -/
abbrev TaskMap := List (String × Bool)

/-- `runningTasks[name]`: `none` plays the role of `undefined`. -/
def lookupTask : TaskMap → String → Option Bool
  | [], _ => none
  | (k, v) :: rest, name => if k = name then some v else lookupTask rest name

/-- `delete runningTasks[name]`. -/
def deleteTask : TaskMap → String → TaskMap
  | [], _ => []
  | (k, v) :: rest, name =>
    if k = name then deleteTask rest name else (k, v) :: deleteTask rest name

/-- `runningTasks[name] = b`. -/
def setTask (m : TaskMap) (name : String) (b : Bool) : TaskMap :=
  (name, b) :: deleteTask m name

/-- Orchestrator state: the `runningTasks` map, plus instrumentation that the
proofs observe — the multiset of task names whose runs are currently in
flight, and a log of every run ever started (most recent first). -/
structure Orch where
  runningTasks : TaskMap
  active : List String
  startLog : List String
deriving DecidableEq

/-- Embedding of `runOrQueue(name)`: when `runningTasks[name]` is undefined
the flag is set to `false` and `gulp.start(name, ...)` launches a run (recorded
in `active` and `startLog`); otherwise the flag is set to `true` and nothing is
started. -/
def runOrQueue (name : String) (s : Orch) : Orch :=
  match lookupTask s.runningTasks name with
  | none =>
    { runningTasks := setTask s.runningTasks name false,
      active := name :: s.active,
      startLog := name :: s.startLog }
  | some _ =>
    { s with runningTasks := setTask s.runningTasks name true }

/-- Embedding of the completion callback passed to `gulp.start`: the run of
`name` leaves `active`; the callback reads `shouldRunAgain = runningTasks[name]`,
deletes the entry, and calls `runOrQueue(name)` again when the flag was truthy.
The callback declares no error parameter, so `_success` — whether the run
succeeded or failed — is never consulted. -/
def completeRun (_success : Bool) (name : String) (s : Orch) : Orch :=
  let shouldRunAgain := lookupTask s.runningTasks name
  let s1 : Orch :=
    { runningTasks := deleteTask s.runningTasks name,
      active := s.active.erase name,
      startLog := s.startLog }
  if shouldRunAgain = some true then runOrQueue name s1 else s1

/-- `n` consecutive `runOrQueue name` calls. -/
def requestN (name : String) : Nat → Orch → Orch
  | 0, s => s
  | n + 1, s => runOrQueue name (requestN name n s)

/-- Initial orchestrator state: `runningTasks` is the empty object and no run
is in flight. -/
def initOrch : Orch := { runningTasks := [], active := [], startLog := [] }

/-- One orchestrator event, observed serially by the single-threaded event
loop: an external `runOrQueue` request, or the completion (successful or not)
of an in-flight run. -/
inductive OrchStep : Orch → Orch → Prop where
  | request (name : String) (s : Orch) : OrchStep s (runOrQueue name s)
  | complete (success : Bool) (name : String) (s : Orch) (h : name ∈ s.active) :
      OrchStep s (completeRun success name s)

/-- States reachable from the initial state by any interleaving of requests
and completions. -/
def Reachable (s : Orch) : Prop :=
  Relation.ReflTransGen OrchStep initOrch s

/-! ## Pointwise lemmas about the task map -/

theorem lookupTask_deleteTask_self (m : TaskMap) (name : String) :
    lookupTask (deleteTask m name) name = none := by
  induction m with
  | nil => rfl
  | cons p rest ih =>
    obtain ⟨k, v⟩ := p
    by_cases h : k = name
    · simpa [deleteTask, h] using ih
    · simpa [deleteTask, h, lookupTask] using ih

theorem lookupTask_deleteTask_ne (m : TaskMap) (name m' : String) (h : m' ≠ name) :
    lookupTask (deleteTask m name) m' = lookupTask m m' := by
  induction m with
  | nil => rfl
  | cons p rest ih =>
    obtain ⟨k, v⟩ := p
    have hn : name ≠ m' := Ne.symm h
    by_cases hp : k = name
    · simpa [deleteTask, hp, lookupTask, hn] using ih
    · by_cases hm : k = m'
      · simp [deleteTask, hp, lookupTask, hm, h]
      · simpa [deleteTask, hp, lookupTask, hm] using ih

theorem lookupTask_setTask_self (m : TaskMap) (name : String) (b : Bool) :
    lookupTask (setTask m name b) name = some b := by
  simp [setTask, lookupTask]

theorem lookupTask_setTask_ne (m : TaskMap) (name m' : String) (b : Bool) (h : m' ≠ name) :
    lookupTask (setTask m name b) m' = lookupTask m m' := by
  have hn : name ≠ m' := Ne.symm h
  simp [setTask, lookupTask, hn, lookupTask_deleteTask_ne m name m' h]

theorem deleteTask_deleteTask (m : TaskMap) (name : String) :
    deleteTask (deleteTask m name) name = deleteTask m name := by
  induction m with
  | nil => rfl
  | cons p rest ih =>
    obtain ⟨k, v⟩ := p
    by_cases h : k = name
    · simpa [deleteTask, h] using ih
    · simpa [deleteTask, h] using ih

theorem deleteTask_setTask (m : TaskMap) (name : String) (b : Bool) :
    deleteTask (setTask m name b) name = deleteTask m name := by
  simp [setTask, deleteTask, deleteTask_deleteTask m name]

theorem setTask_setTask (m : TaskMap) (name : String) (b b' : Bool) :
    setTask (setTask m name b) name b' = setTask m name b' := by
  simp [setTask, deleteTask, deleteTask_deleteTask]

/-! ## Coalescing: the behavior of repeated requests during a run -/

theorem runOrQueue_of_running (name : String) (s : Orch) (b : Bool)
    (h : lookupTask s.runningTasks name = some b) :
    runOrQueue name s = { s with runningTasks := setTask s.runningTasks name true } := by
  simp [runOrQueue, h]

theorem runOrQueue_of_idle (name : String) (s : Orch)
    (h : lookupTask s.runningTasks name = none) :
    runOrQueue name s =
      { runningTasks := setTask s.runningTasks name false,
        active := name :: s.active,
        startLog := name :: s.startLog } := by
  simp [runOrQueue, h]

theorem requestN_of_running (name : String) (s : Orch) (b : Bool) (n : Nat)
    (h : lookupTask s.runningTasks name = some b) :
    requestN name (n + 1) s = { s with runningTasks := setTask s.runningTasks name true } := by
  induction n with
  | zero => simp [requestN, runOrQueue_of_running name s b h]
  | succ k ih =>
    show runOrQueue name (requestN name (k + 1) s) = _
    rw [ih, runOrQueue_of_running name _ true (by simp [lookupTask_setTask_self]),
      setTask_setTask]

/-- Claim C1: for every task name and every sequence of N ≥ 1 `runOrQueue(name)`
calls issued while a run of that task is in flight (its `runningTasks` entry is
defined), no new run is started by those calls, the pending marker collapses to
the single boolean `true`, and after the in-flight run completes exactly one
additional run is scheduled, regardless of N; the coalesced re-run itself is
recorded with a `false` flag, so its own completion (absent further requests)
schedules nothing more — no request is dropped and none spawns extra runs. -/
theorem runOrQueue_coalesces (name : String) (b : Bool) (N : Nat) (s : Orch)
    (hN : 1 ≤ N) (hrun : lookupTask s.runningTasks name = some b) :
    (requestN name N s).startLog = s.startLog ∧
    (requestN name N s).active = s.active ∧
    lookupTask (requestN name N s).runningTasks name = some true ∧
    ∀ success1 success2 : Bool,
      (completeRun success1 name (requestN name N s)).startLog = name :: s.startLog ∧
      lookupTask (completeRun success1 name (requestN name N s)).runningTasks name =
        some false ∧
      (completeRun success2 name (completeRun success1 name (requestN name N s))).startLog =
        name :: s.startLog := by
  obtain ⟨n, rfl⟩ : ∃ n, N = n + 1 := ⟨N - 1, by omega⟩
  rw [requestN_of_running name s b n hrun]
  refine ⟨rfl, rfl, lookupTask_setTask_self _ _ _, ?_⟩
  intro success1 success2
  have hcomp :
      completeRun success1 name { s with runningTasks := setTask s.runningTasks name true } =
        { runningTasks :=
            setTask (deleteTask (setTask s.runningTasks name true) name) name false,
          active := name :: (s.active.erase name),
          startLog := name :: s.startLog } := by
    simp [completeRun, lookupTask_setTask_self, runOrQueue, deleteTask_setTask,
      lookupTask_deleteTask_self]
  rw [hcomp]
  refine ⟨rfl, lookupTask_setTask_self _ _ _, ?_⟩
  simp [completeRun, lookupTask_setTask_self]

/-- Witness for `runOrQueue_coalesces`: a concrete state with `html-js` in
flight, three requests issued during the run, and both hypotheses discharged by
evaluation. -/
theorem runOrQueue_coalesces_witness :
    1 ≤ 3 ∧
    lookupTask (Orch.mk [("html-js", false)] ["html-js"] ["html-js"]).runningTasks
      "html-js" = some false ∧
    (completeRun true "html-js"
        (requestN "html-js" 3 (Orch.mk [("html-js", false)] ["html-js"] ["html-js"]))).startLog =
      "html-js" :: ["html-js"] :=
  ⟨by decide, by decide,
    ((runOrQueue_coalesces "html-js" false 3
      (Orch.mk [("html-js", false)] ["html-js"] ["html-js"]) (by decide) (by decide)).2.2.2
      true true).1⟩

/-! ## The at-most-one-concurrent-run invariant -/

/-- Coupling invariant of the orchestrator: a task name has exactly one run in
flight precisely when its `runningTasks` entry is defined, and no run in flight
when the entry is `undefined`. -/
def ActiveInv (s : Orch) : Prop :=
  ∀ name, s.active.count name = if lookupTask s.runningTasks name = none then 0 else 1

theorem activeInv_runOrQueue (name : String) (s : Orch) (h : ActiveInv s) :
    ActiveInv (runOrQueue name s) := by
  cases hl : lookupTask s.runningTasks name with
  | none =>
    rw [runOrQueue_of_idle name s hl]
    intro m
    by_cases hm : m = name
    · subst hm
      have h0 : s.active.count m = 0 := by simpa [hl] using h m
      simp [List.count_cons, h0, lookupTask_setTask_self]
    · have hne : name ≠ m := Ne.symm hm
      simp [List.count_cons, hne, lookupTask_setTask_ne _ _ _ _ hm, h m]
  | some b =>
    rw [runOrQueue_of_running name s b hl]
    intro m
    by_cases hm : m = name
    · subst hm
      have h1 : s.active.count m = 1 := by simpa [hl] using h m
      simp [h1, lookupTask_setTask_self]
    · simp [lookupTask_setTask_ne _ _ _ _ hm, h m]

theorem activeInv_completeRun (success : Bool) (name : String) (s : Orch)
    (hmem : name ∈ s.active) (h : ActiveInv s) :
    ActiveInv (completeRun success name s) := by
  have hpos : 0 < s.active.count name := List.count_pos_iff.2 hmem
  have hcount := h name
  cases hl : lookupTask s.runningTasks name with
  | none => rw [hl] at hcount; simp [hcount] at hpos
  | some b =>
    have h1 : s.active.count name = 1 := by simpa [hl] using hcount
    have herase : (s.active.erase name).count name = 0 := by
      rw [List.count_erase_self, h1]
    cases b with
    | true =>
      have hres :
          completeRun success name s =
            { runningTasks :=
                setTask (deleteTask s.runningTasks name) name false,
              active := name :: (s.active.erase name),
              startLog := name :: s.startLog } := by
        simp [completeRun, hl, runOrQueue, lookupTask_deleteTask_self]
      rw [hres]
      intro m
      by_cases hm : m = name
      · subst hm
        simp [List.count_cons, herase, lookupTask_setTask_self]
      · have hne : name ≠ m := Ne.symm hm
        simp [List.count_cons, hne, List.count_erase_of_ne hm,
          lookupTask_setTask_ne _ _ _ _ hm, lookupTask_deleteTask_ne _ _ _ hm, h m]
    | false =>
      have hres :
          completeRun success name s =
            { runningTasks := deleteTask s.runningTasks name,
              active := s.active.erase name,
              startLog := s.startLog } := by
        simp [completeRun, hl]
      rw [hres]
      intro m
      by_cases hm : m = name
      · subst hm
        simp [herase, lookupTask_deleteTask_self]
      · simp [List.count_erase_of_ne hm, lookupTask_deleteTask_ne _ _ _ hm, h m]

theorem activeInv_step {s t : Orch} (hstep : OrchStep s t) (h : ActiveInv s) : ActiveInv t := by
  cases hstep with
  | request name s => exact activeInv_runOrQueue name s h
  | complete success name s hmem => exact activeInv_completeRun success name s hmem h

theorem reachable_activeInv (s : Orch) (h : Reachable s) : ActiveInv s := by
  induction h with
  | refl => intro name; simp [initOrch, lookupTask]
  | tail _ hstep ih => exact activeInv_step hstep ih

/-- Claim C2: in every state reachable by any interleaving of `runOrQueue`
calls and run completions, at most one run of each task name is in flight: a
request arriving while the task is running only sets the pending flag and
never starts a second concurrent execution. -/
theorem at_most_one_concurrent_run (s : Orch) (hs : Reachable s) (name : String) :
    s.active.count name ≤ 1 := by
  have h := reachable_activeInv s hs name
  rw [h]
  split <;> omega

/-- Witness for `at_most_one_concurrent_run`: the state reached by one request
from the initial state is reachable and satisfies the bound. -/
theorem at_most_one_concurrent_run_witness :
    Reachable (runOrQueue "html-js" initOrch) ∧
    (runOrQueue "html-js" initOrch).active.count "html-js" ≤ 1 :=
  ⟨Relation.ReflTransGen.single (OrchStep.request "html-js" initOrch),
   at_most_one_concurrent_run (runOrQueue "html-js" initOrch)
     (Relation.ReflTransGen.single (OrchStep.request "html-js" initOrch)) "html-js"⟩

/-- Claim C3: a run that completes with failure executes exactly the same
completion logic as one that succeeds (the callback never consults the
outcome): the task's `runningTasks` entry is cleared, a set pending flag causes
exactly one re-request (recorded with a fresh `false` flag), a clear flag
leaves the entry undefined with no re-request, and the entries and in-flight
runs of every other task name are untouched. -/
theorem completion_ignores_failure (success : Bool) (name : String) (s : Orch) :
    completeRun success name s = completeRun true name s ∧
    (∀ m : String, m ≠ name →
      lookupTask (completeRun success name s).runningTasks m = lookupTask s.runningTasks m ∧
      (completeRun success name s).active.count m = s.active.count m) ∧
    (lookupTask s.runningTasks name = some true →
      (completeRun success name s).startLog = name :: s.startLog ∧
      lookupTask (completeRun success name s).runningTasks name = some false) ∧
    (lookupTask s.runningTasks name = some false →
      (completeRun success name s).startLog = s.startLog ∧
      lookupTask (completeRun success name s).runningTasks name = none) := by
  refine ⟨rfl, ?_, ?_, ?_⟩
  · intro m hm
    by_cases hl : lookupTask s.runningTasks name = some true
    · have hres :
          completeRun success name s =
            { runningTasks :=
                setTask (deleteTask s.runningTasks name) name false,
              active := name :: (s.active.erase name),
              startLog := name :: s.startLog } := by
        simp [completeRun, hl, runOrQueue, lookupTask_deleteTask_self]
      have hne : name ≠ m := Ne.symm hm
      rw [hres]
      constructor
      · simp [lookupTask_setTask_ne _ _ _ _ hm, lookupTask_deleteTask_ne _ _ _ hm]
      · simp [List.count_cons, hne, List.count_erase_of_ne hm]
    · have hres :
          completeRun success name s =
            { runningTasks := deleteTask s.runningTasks name,
              active := s.active.erase name,
              startLog := s.startLog } := by
        simp [completeRun, hl]
      rw [hres]
      exact ⟨lookupTask_deleteTask_ne _ _ _ hm, List.count_erase_of_ne hm _⟩
  · intro hl
    have hres :
        completeRun success name s =
          { runningTasks :=
              setTask (deleteTask s.runningTasks name) name false,
            active := name :: (s.active.erase name),
            startLog := name :: s.startLog } := by
      simp [completeRun, hl, runOrQueue, lookupTask_deleteTask_self]
    rw [hres]
    exact ⟨rfl, lookupTask_setTask_self _ _ _⟩
  · intro hl
    have hres :
        completeRun success name s =
          { runningTasks := deleteTask s.runningTasks name,
            active := s.active.erase name,
            startLog := s.startLog } := by
      simp [completeRun, hl]
    rw [hres]
    exact ⟨rfl, lookupTask_deleteTask_self _ _⟩

/-- Witness for `completion_ignores_failure`: a concrete running state with the
pending flag set, completed with failure; the inner hypotheses are discharged
by evaluation. -/
theorem completion_ignores_failure_witness :
    completeRun false "less" (Orch.mk [("less", true)] ["less"] ["less"]) =
      completeRun true "less" (Orch.mk [("less", true)] ["less"] ["less"]) ∧
    lookupTask (Orch.mk [("less", true)] ["less"] ["less"]).runningTasks "less" = some true ∧
    (completeRun false "less" (Orch.mk [("less", true)] ["less"] ["less"])).startLog =
      "less" :: ["less"] :=
  ⟨(completion_ignores_failure false "less" (Orch.mk [("less", true)] ["less"] ["less"])).1,
   by decide,
   ((completion_ignores_failure false "less"
      (Orch.mk [("less", true)] ["less"] ["less"])).2.2.1 (by decide)).1⟩

/-! ## Update handler: spurious-change filtering and manifest detection -/

theorem not_all_of_filter_length_ne {α : Type} {p : α → Bool} {l : List α}
    (h : (l.filter p).length ≠ l.length) : ∃ a ∈ l, p a = false := by
  by_contra hc
  push_neg at hc
  apply h
  apply List.filter_length_eq_length.mpr
  intro a ha
  simpa using hc a ha

theorem exists_mem_filter_pos {α : Type} (p : α → Bool) (l : List α) :
    0 < (l.filter p).length ↔ ∃ a ∈ l, p a = true := by
  rw [List.length_pos, ne_eq, List.filter_eq_nil_iff]
  push_neg
  simp

theorem count_requestRebuild_trace (changedFiles : List String) (pruneErr installErr : Bool) :
    (updateHandlerTrace changedFiles pruneErr installErr).count .requestRebuild =
      if updateHandlerAction changedFiles = .noAction then 0 else 1 := by
  unfold updateHandlerTrace
  cases hact : updateHandlerAction changedFiles
  · simp
  · simp
  · cases pruneErr <;> cases installErr <;> simp

theorem updateHandlerAction_eq_noAction (changedFiles : List String) :
    updateHandlerAction changedFiles = .noAction ↔
      ∀ f ∈ changedFiles, hasNodeModules f = true := by
  by_cases hlen :
      (changedFiles.filter (fun f => hasNodeModules f)).length = changedFiles.length
  · have hact : updateHandlerAction changedFiles = .noAction := by
      unfold updateHandlerAction
      simp [hlen]
    simp only [hact, true_iff]
    exact List.filter_length_eq_length.mp hlen
  · have hact : updateHandlerAction changedFiles ≠ .noAction := by
      unfold updateHandlerAction
      simp only [ne_eq, hlen, not_false_iff, if_true, ite_true]
      split <;> simp
    simp only [hact, false_iff]
    intro hall
    obtain ⟨f, hf, hb⟩ := not_all_of_filter_length_ne hlen
    rw [hall f hf] at hb
    exact absurd hb (by decide)

/-- Claim C4: a change batch delivered to the watchify update handler in which
every path contains `/node_modules/` causes no action and zero rebuild
requests; a batch with at least one path outside `node_modules` makes the
handler proceed and issue exactly one rebuild request, whichever continuation
branch (prune failure, install failure, install success, or plain rebundle)
runs. -/
theorem update_handler_spurious_filtering (changedFiles : List String)
    (pruneErr installErr : Bool) :
    ((∀ f ∈ changedFiles, hasNodeModules f = true) →
      updateHandlerAction changedFiles = .noAction ∧
      (updateHandlerTrace changedFiles pruneErr installErr).count .requestRebuild = 0) ∧
    ((∃ f ∈ changedFiles, hasNodeModules f = false) →
      updateHandlerAction changedFiles ≠ .noAction ∧
      (updateHandlerTrace changedFiles pruneErr installErr).count .requestRebuild = 1) := by
  constructor
  · intro h
    have hact := (updateHandlerAction_eq_noAction changedFiles).mpr h
    exact ⟨hact, by rw [count_requestRebuild_trace, if_pos hact]⟩
  · intro h
    have hact : updateHandlerAction changedFiles ≠ .noAction := by
      intro hc
      obtain ⟨f, hf, hb⟩ := h
      rw [(updateHandlerAction_eq_noAction changedFiles).mp hc f hf] at hb
      exact absurd hb (by decide)
    exact ⟨hact, by rw [count_requestRebuild_trace, if_neg hact]⟩

/-- Witness for `update_handler_spurious_filtering`: a purely spurious batch
yields zero rebuild requests and a genuine batch yields exactly one. -/
theorem update_handler_spurious_filtering_witness :
    (∀ f ∈ ["/app/node_modules/x/y.js"], hasNodeModules f = true) ∧
    (updateHandlerTrace ["/app/node_modules/x/y.js"] false false).count .requestRebuild = 0 ∧
    (∃ f ∈ ["/app/src/main.jsx"], hasNodeModules f = false) ∧
    (updateHandlerTrace ["/app/src/main.jsx"] false false).count .requestRebuild = 1 :=
  ⟨by decide,
   ((update_handler_spurious_filtering ["/app/node_modules/x/y.js"] false false).1
     (by decide)).2,
   by decide,
   ((update_handler_spurious_filtering ["/app/src/main.jsx"] false false).2 (by decide)).2⟩

/-- Claim C5 counterexample: the handler scans the whole batch — including
paths inside `node_modules` — for manifest files.  In the batch below the only
path outside `node_modules` is not a manifest, yet the manifest path
(teardown, prune, install) is taken because a `package.json` inside
`node_modules` is present, contradicting the claim that manifest files inside
the installation directory never trigger it. -/
theorem manifest_detection_counterexample :
    updateHandlerAction ["/app/src/main.js", "/app/node_modules/dep/package.json"] =
      .manifestReinstall ∧
    (["/app/src/main.js", "/app/node_modules/dep/package.json"].filter
        (fun f => !hasNodeModules f)).all (fun f => !isPackageJson f) = true := by
  decide

/-- Claim C5 as amended: the manifest path is taken iff at least one changed
path lies outside `node_modules` (making the batch genuine) and at least one
changed path anywhere in the batch — inside `node_modules` included —
satisfies the dot-split manifest test (basename of the second-to-last
dot-segment is `package` and the last is `json`, which also accepts names
ending in `.package.json`). -/
theorem updateHandlerAction_eq_manifest (changedFiles : List String) :
    updateHandlerAction changedFiles = .manifestReinstall ↔
      ((∃ f ∈ changedFiles, hasNodeModules f = false) ∧
       (∃ f ∈ changedFiles, isPackageJson f = true)) := by
  by_cases hlen :
      (changedFiles.filter (fun f => hasNodeModules f)).length = changedFiles.length
  · have hall := List.filter_length_eq_length.mp hlen
    have hact : updateHandlerAction changedFiles = .noAction :=
      (updateHandlerAction_eq_noAction changedFiles).mpr hall
    rw [hact]
    constructor
    · intro hc
      cases hc
    · rintro ⟨⟨f, hf, hb⟩, -⟩
      rw [hall f hf] at hb
      exact absurd hb (by decide)
  · have hex : ∃ f ∈ changedFiles, hasNodeModules f = false :=
      not_all_of_filter_length_ne hlen
    by_cases hp : (changedFiles.filter (fun f => isPackageJson f)).length > 0
    · have hpkg := (exists_mem_filter_pos (fun f => isPackageJson f) changedFiles).mp hp
      have hact : updateHandlerAction changedFiles = .manifestReinstall := by
        unfold updateHandlerAction
        simp [hlen, hp]
      simp [hact, hex, hpkg]
    · have hnpkg : ¬ ∃ f ∈ changedFiles, isPackageJson f = true := fun hc =>
        hp ((exists_mem_filter_pos (fun f => isPackageJson f) changedFiles).mpr hc)
      have hact : updateHandlerAction changedFiles = .rebundle := by
        unfold updateHandlerAction
        simp [hlen, hp]
      simp [hact, hnpkg]

/-! ## Session invalidation and lazy replacement -/

theorem runTrace_manifest (changedFiles : List String) (pruneErr installErr : Bool)
    (s : BundlerSlot) (hact : updateHandlerAction changedFiles = .manifestReinstall) :
    runTrace s (updateHandlerTrace changedFiles pruneErr installErr) =
      { s with bundlerInstance := none } := by
  unfold updateHandlerTrace
  rw [hact]
  cases pruneErr <;> cases installErr <;> simp [runTrace, applyEffect]

/-- Claim C6 counterexample: for the concrete manifest batch
`["/app/package.json"]` the handler issues its single rebuild request while
the bundler slot still holds no session: executing the whole handler trace —
which ends at the point the request has been issued — leaves
`bundlerInstance` undefined, so session replacement does not happen
synchronously before the rebuild request is issued; the replacement is only
constructed later, by the `bundler()` call inside the requested task. -/
theorem session_replacement_counterexample :
    (updateHandlerTrace ["/app/package.json"] false false).count .requestRebuild = 1 ∧
    (runTrace (BundlerSlot.mk (some (Session.mk 0 true)) 1)
        (updateHandlerTrace ["/app/package.json"] false false)).bundlerInstance = none := by
  decide

/-- Claim C6 as amended: after a manifest change the old session is
invalidated synchronously during the handler (before the prune and install
steps and before the rebuild request), and the replacement is constructed
lazily by the first `bundler()` call during the requested rebuild; that
rebuild therefore always observes a session constructed after the
invalidation, whose identity differs from the invalidated session's. -/
theorem rebuild_observes_fresh_session (changedFiles : List String)
    (pruneErr installErr watchJs : Bool) (s : BundlerSlot) (old : Session)
    (hact : updateHandlerAction changedFiles = .manifestReinstall)
    (_hold : s.bundlerInstance = some old)
    (hid : old.id < s.nextId) :
    (runTrace s (updateHandlerTrace changedFiles pruneErr installErr)).bundlerInstance =
      none ∧
    (bundler watchJs
        (runTrace s (updateHandlerTrace changedFiles pruneErr installErr))).1.id =
      s.nextId ∧
    (bundler watchJs
        (runTrace s (updateHandlerTrace changedFiles pruneErr installErr))).1.id ≠
      old.id := by
  rw [runTrace_manifest changedFiles pruneErr installErr s hact]
  refine ⟨rfl, rfl, ?_⟩
  show s.nextId ≠ old.id
  omega

/-- Witness for `rebuild_observes_fresh_session` at a concrete slot holding
session 0 with counter 1 and the manifest batch `["/app/package.json"]`. -/
theorem rebuild_observes_fresh_session_witness :
    updateHandlerAction ["/app/package.json"] = .manifestReinstall ∧
    (BundlerSlot.mk (some (Session.mk 0 true)) 1).bundlerInstance =
      some (Session.mk 0 true) ∧
    (Session.mk 0 true).id < (BundlerSlot.mk (some (Session.mk 0 true)) 1).nextId ∧
    (bundler true (runTrace (BundlerSlot.mk (some (Session.mk 0 true)) 1)
        (updateHandlerTrace ["/app/package.json"] false false))).1.id ≠
      (Session.mk 0 true).id :=
  ⟨by decide, rfl, by decide,
   (rebuild_observes_fresh_session ["/app/package.json"] false false true
      (BundlerSlot.mk (some (Session.mk 0 true)) 1) (Session.mk 0 true)
      (by decide) rfl (by decide)).2.2⟩

/-- Claim C9 counterexample: in non-watch mode the bundler is still memoized:
starting from the fresh closure state, a second `bundler()` call returns the
very session constructed by the first call — a persistent bundling session
shared across invocations, not a fully cold one per invocation. -/
theorem cold_bundle_counterexample :
    (bundler false (BundlerSlot.mk none 0)).2.bundlerInstance ≠ none ∧
    (bundler false ((bundler false (BundlerSlot.mk none 0)).2)).1 =
      (bundler false (BundlerSlot.mk none 0)).1 := by
  decide

/-- Claim C9 as amended: in non-watch mode the session constructed by the
first `bundler()` call is a plain (non-watchify-wrapped) instance — so no
incremental update subscription exists — but it is memoized all the same:
once `bundlerInstance` is set, every later `bundler()` call in the same
process returns the identical session and leaves the slot unchanged. -/
theorem bundler_memoized_without_watch (s : BundlerSlot) (inst : Session) :
    (s.bundlerInstance = none → (bundler false s).1.watchified = false) ∧
    (s.bundlerInstance = some inst → bundler false s = (inst, s)) := by
  constructor
  · intro h
    simp [bundler, h]
  · intro h
    simp [bundler, h]

/-- Witness for `bundler_memoized_without_watch` on an empty slot and on a
slot already holding a session. -/
theorem bundler_memoized_without_watch_witness :
    (BundlerSlot.mk none 5).bundlerInstance = none ∧
    (bundler false (BundlerSlot.mk none 5)).1.watchified = false ∧
    (BundlerSlot.mk (some (Session.mk 2 false)) 3).bundlerInstance =
      some (Session.mk 2 false) ∧
    bundler false (BundlerSlot.mk (some (Session.mk 2 false)) 3) =
      (Session.mk 2 false, BundlerSlot.mk (some (Session.mk 2 false)) 3) :=
  ⟨rfl,
   (bundler_memoized_without_watch (BundlerSlot.mk none 5) (Session.mk 2 false)).1 rfl,
   rfl,
   (bundler_memoized_without_watch (BundlerSlot.mk (some (Session.mk 2 false)) 3)
      (Session.mk 2 false)).2 rfl⟩

/-! ## Watch-channel wiring -/

/-- Claim C8 counterexample: there is no priority classification — the
watch channels fire independently.  For a change whose path matches both the
asset pattern and the script channel (a watched module), the handlers request
both `html-assets` and `html-js`: the change is not treated as Script-only,
and an asset copy is triggered alongside the script rebuild. -/
theorem classification_priority_counterexample :
    changeRequests false true false true = ["html-assets", "html-js"] ∧
    "html-assets" ∈ changeRequests false true false true := by
  decide

/-- Claim C8 as amended: each raw change notification triggers one request
per independently matching channel — `html-less`, `html-assets`, `html-only`
for the three `gulp.watch` globs and `html-js` via the bundler's watcher —
with no priority order: a path matching several patterns triggers several
requests, one per matching channel. -/
theorem change_requests_per_channel (matchLess matchAssets matchHtml watchedModule : Bool) :
    ("html-less" ∈ changeRequests matchLess matchAssets matchHtml watchedModule ↔
      matchLess = true) ∧
    ("html-assets" ∈ changeRequests matchLess matchAssets matchHtml watchedModule ↔
      matchAssets = true) ∧
    ("html-only" ∈ changeRequests matchLess matchAssets matchHtml watchedModule ↔
      matchHtml = true) ∧
    ("html-js" ∈ changeRequests matchLess matchAssets matchHtml watchedModule ↔
      watchedModule = true) ∧
    (changeRequests matchLess matchAssets matchHtml watchedModule).length =
      (if matchLess then 1 else 0) + (if matchAssets then 1 else 0) +
      (if matchHtml then 1 else 0) + (if watchedModule then 1 else 0) := by
  cases matchLess <;> cases matchAssets <;> cases matchHtml <;> cases watchedModule <;>
    decide

/-! ## Completion logging -/

/-- Claim C7 counterexample: the completion callback logs the identical line
for a failed run and for a successful one — the same green
`Build finished successfully` message — so the line for a failure is not
colored or otherwise distinguished from the line for a success. -/
theorem completion_line_counterexample :
    completionLog false 1500 = completionLog true 1500 ∧
    (outputBuildCompleteMessage 1500).headColor = Color.green := by
  decide

/-- Claim C7 as amended: every task-run completion — success or failure —
produces exactly one completion log line, always carrying the elapsed time
(in yellow, with the unit picked by `formattedTimeDiff`), but it is the same
green success-styled line in both cases: failures are not distinguished on
the completion line, only by separate error-handler output. -/
theorem completion_line_spec (success : Bool) (elapsedMs : Nat) :
    (completionLog success elapsedMs).length = 1 ∧
    completionLog success elapsedMs = [outputBuildCompleteMessage elapsedMs] ∧
    (outputBuildCompleteMessage elapsedMs).time.diffMs = elapsedMs ∧
    (outputBuildCompleteMessage elapsedMs).headColor = Color.green ∧
    (outputBuildCompleteMessage elapsedMs).timeColor = Color.yellow ∧
    completionLog success elapsedMs = completionLog true elapsedMs := by
  refine ⟨rfl, rfl, ?_, rfl, rfl, rfl⟩
  unfold outputBuildCompleteMessage formattedTimeDiff
  by_cases h1 : elapsedMs < 1000 <;> by_cases h2 : elapsedMs > 60000 <;> simp [h1, h2]

/-! ## Serve task port selection -/

/-- Claim C10 counterexample: `options.port = 0` is explicitly supplied yet
does not take precedence — JavaScript `||` treats 0 as falsy, so the
environment port (or the 4040 default) wins. -/
theorem serve_port_counterexample :
    servePort (some 0) (some 8080) = 8080 ∧ servePort (some 0) none = 4040 := by
  decide

/-- Claim C10 as amended: with neither port supplied the server listens on
4040 (not the 4000 stated by the in-code option documentation); a supplied
nonzero `options.port` takes precedence over both the environment port and
the default, and a nonzero environment port over the default; a supplied
`options.port` of 0 is falsy and therefore overridden. -/
theorem serve_port_selection (envPort : Option Nat) (p e : Nat)
    (hp : p ≠ 0) (he : e ≠ 0) :
    servePort none none = 4040 ∧
    servePort (some p) envPort = p ∧
    servePort none (some e) = e := by
  refine ⟨rfl, ?_, ?_⟩
  · simp [servePort, jsTruthy, hp]
  · simp [servePort, jsTruthy, he]

/-- Witness for `serve_port_selection` at concrete nonzero ports. -/
theorem serve_port_selection_witness :
    (8080 : Nat) ≠ 0 ∧ (5000 : Nat) ≠ 0 ∧
    servePort (some 8080) (some 9999) = 8080 ∧ servePort none (some 5000) = 5000 :=
  ⟨by decide, by decide,
   (serve_port_selection (some 9999) 8080 5000 (by decide) (by decide)).2.1,
   (serve_port_selection (some 9999) 8080 5000 (by decide) (by decide)).2.2⟩

end Syrup
